import Mathlib

/-!
Shallow embedding of the resilient HTTP retrieval layer of the repository:
the proxy resolver and resilient fetcher (`fetch-with-retry.ts`), the
module-level dispatcher (`fetch-with-proxy`), the Figma service helpers
(`figma.ts`) and the credential-store fallback logic.

External effects (URL parsing by the WHATWG `URL` class, the in-process
HTTP transport, the external curl process, the JSON parser, the Redis
lookup) are modelled as explicit parameters carrying their outcome, so the
control flow of the source is embedded exactly while the environment stays
abstract.
-/

/-! ## String primitives (JS built-ins used by the source) -/

/-- JS `s.startsWith(p)`: `p` is a prefix of `s`. -/
def strStartsWith (s p : String) : Bool := decide (p.toList <+: s.toList)

/-- JS `s.endsWith(p)`: `p` is a suffix of `s`. -/
def strEndsWith (s p : String) : Bool := decide (p.toList <:+ s.toList)

/-- JS `s.includes(sub)`: `sub` occurs as a contiguous substring of `s`. -/
def strContains (s sub : String) : Bool := decide (sub.toList <:+: s.toList)

/-- JS `s.slice(1)`: `s` with its first character removed. -/
def sliceFrom1 (s : String) : String := String.mk (s.toList.drop 1)

/-- JS `s.toLowerCase()` (restricted to per-character lowering). -/
def strToLower (s : String) : String := String.mk (s.toList.map Char.toLower)

/-- Remove leading and trailing whitespace from a character list. -/
def trimList (l : List Char) : List Char :=
  ((l.dropWhile Char.isWhitespace).reverse.dropWhile Char.isWhitespace).reverse

/-- JS `s.trim()`. -/
def strTrim (s : String) : String := String.mk (trimList s.toList)

/-- JS `s.split(",")` for the single-character separator used by the source. -/
def splitOnComma (s : String) : List String := (s.toList.splitOn ',').map String.mk

/-! ## Proxy resolver (`fetch-with-retry.ts`, `shouldBypassProxy` / `getDispatcher`) -/

/-- The pattern test inside `shouldBypassProxy`'s `noProxyList.some(...)` callback:
`pattern === "*"`, else dot-prefixed domain matching
(`hostname === pattern.slice(1) || hostname.endsWith(pattern)`),
else exact equality `hostname === pattern`. -/
def bypassPattern (hostname pattern : String) : Bool :=
  if pattern == "*" then true
  else if strStartsWith pattern "." then
    hostname == sliceFrom1 pattern || strEndsWith hostname pattern
  else hostname == pattern

/-- `noProxyList.some(pattern => ...)` over an already split-and-trimmed list. -/
def shouldBypass (hostname : String) (noProxyList : List String) : Bool :=
  noProxyList.any (bypassPattern hostname)

/-- `noProxy.split(",").map(s => s.trim())`. -/
def splitTrim (noProxy : String) : List String := (splitOnComma noProxy).map strTrim

/-- `shouldBypassProxy(url, noProxy)`.  `parseHost` stands for `new URL(url).hostname`;
`none` models the constructor throwing on a malformed URL, in which case the
`catch` block logs and returns `false`. -/
def shouldBypassProxy (parseHost : String → Option String) (url noProxy : String) : Bool :=
  match parseHost url with
  | some hostname => shouldBypass hostname (splitTrim noProxy)
  | none => false

/-- The process environment fields read by the proxy code. -/
structure Env where
  HTTPS_PROXY : Option String
  HTTP_PROXY : Option String
  https_proxy : Option String
  http_proxy : Option String
  NO_PROXY : Option String
  no_proxy : Option String
deriving DecidableEq

/-- The proxy configuration `getDispatcher` reads from the environment at each
call: `process.env.HTTPS_PROXY ?? process.env.HTTP_PROXY` and
`process.env.NO_PROXY ?? process.env.no_proxy`. -/
structure ProxyConfiguration where
  proxyUrl : Option String
  noProxyRaw : Option String
deriving DecidableEq

def readProxyConfig (e : Env) : ProxyConfiguration :=
  { proxyUrl := e.HTTPS_PROXY <|> e.HTTP_PROXY
    noProxyRaw := e.NO_PROXY <|> e.no_proxy }

/-- The dispatcher returned by `getDispatcher`: `undefined` (direct) or a
`ProxyAgent` for the given proxy URL. -/
inductive Dispatch
  | direct
  | proxy (url : String)
deriving DecidableEq

/-- Body of `getDispatcher` after the two environment reads.  The second
component counts `new ProxyAgent(...)` constructions performed by the call
(line `return new ProxyAgent(PROXY)` runs exactly on the proxy path).
JS truthiness of the strings (`!PROXY`, `NO_PROXY && ...`) is spelled out as
emptiness tests. -/
def getDispatcherFromConfig (c : ProxyConfiguration) (parseHost : String → Option String)
    (url : String) : Dispatch × Nat :=
  match c.proxyUrl with
  | none => (Dispatch.direct, 0)
  | some proxyUrl =>
    if proxyUrl = "" then (Dispatch.direct, 0)
    else
      match c.noProxyRaw with
      | some np =>
        if np ≠ "" ∧ shouldBypassProxy parseHost url np = true then (Dispatch.direct, 0)
        else (Dispatch.proxy proxyUrl, 1)
      | none => (Dispatch.proxy proxyUrl, 1)

/-- `getDispatcher(url)`: reads the environment afresh, then decides.  The
construction count instruments the `new ProxyAgent(PROXY)` on its proxy path. -/
def getDispatcherCounted (parseHost : String → Option String) (e : Env) (url : String) :
    Dispatch × Nat :=
  getDispatcherFromConfig (readProxyConfig e) parseHost url

def getDispatcher (parseHost : String → Option String) (e : Env) (url : String) : Dispatch :=
  (getDispatcherCounted parseHost e url).1

/-! ## Auxiliary string lemmas -/

theorem strMkToList (s : String) : String.mk s.toList = s := by cases s; rfl

theorem strExt {s t : String} (h : s.toList = t.toList) : s = t := by
  cases s; cases t; simp [String.toList] at h; exact congrArg String.mk h

theorem strToListAppend (s t : String) : (s ++ t).toList = s.toList ++ t.toList := by
  simp [String.toList, String.data_append]

theorem dotAppend_toList (D : String) : ("." ++ D).toList = '.' :: D.toList := by
  rw [strToListAppend]; rfl

/-- `bypassPattern` matches exactly the three shapes the spec names. -/
theorem bypassPattern_iff (H p : String) :
    bypassPattern H p = true ↔
      p = "*" ∨ p = H ∨ ∃ D, p = "." ++ D ∧ (H = D ∨ p.toList <:+ H.toList) := by
  unfold bypassPattern
  by_cases h1 : p = "*"
  · simp [h1]
  · rw [if_neg (by simpa using h1)]
    by_cases h2 : strStartsWith p "." = true
    · rw [if_pos h2]
      obtain ⟨t, ht⟩ : ∃ t, p.toList = '.' :: t := by
        have := of_decide_eq_true h2
        obtain ⟨u, hu⟩ := this
        exact ⟨u, hu.symm⟩
      have hslice : sliceFrom1 p = String.mk t := by
        unfold sliceFrom1; rw [ht]; rfl
      constructor
      · intro h
        rcases Bool.or_eq_true_iff.mp h with h | h
        · have hH : H = String.mk t := by rw [← hslice]; exact eq_of_beq h
          refine Or.inr (Or.inr ⟨String.mk t, ?_, Or.inl hH⟩)
          apply strExt
          rw [ht, dotAppend_toList]; rfl
        · refine Or.inr (Or.inr ⟨String.mk t, ?_, Or.inr (of_decide_eq_true h)⟩)
          apply strExt
          rw [ht, dotAppend_toList]; rfl
      · rintro (h | h | ⟨D, hD, hcase⟩)
        · exact absurd h h1
        · subst h
          apply Bool.or_eq_true_iff.mpr
          exact Or.inr (decide_eq_true (List.suffix_refl _))
        · have htD : t = D.toList := by
            have := congrArg String.toList hD
            rw [ht, dotAppend_toList] at this
            exact (List.cons.injEq _ _ _ _).mp this |>.2
          rcases hcase with hHD | hsuf
          · apply Bool.or_eq_true_iff.mpr
            refine Or.inl (beq_iff_eq.mpr ?_)
            rw [hslice, htD, hHD, strMkToList]
          · exact Bool.or_eq_true_iff.mpr (Or.inr (decide_eq_true hsuf))
    · rw [if_neg h2]
      constructor
      · intro h
        exact Or.inr (Or.inl (eq_of_beq h).symm)
      · rintro (h | h | ⟨D, hD, _⟩)
        · exact absurd h h1
        · exact beq_iff_eq.mpr h.symm
        · exfalso
          apply h2
          apply decide_eq_true
          refine ⟨D.toList, ?_⟩
          have := congrArg String.toList hD
          rw [dotAppend_toList] at this
          simpa using this.symm

/-- C1: For every hostname H and no-proxy pattern list L, the bypass predicate
(`shouldBypassProxy` over the comma-split, whitespace-trimmed patterns) returns
true iff some pattern in L is the wildcard `*`, or equals H exactly, or has the
form `.D` where H equals D or H ends with the full pattern `.D`. -/
theorem shouldBypass_characterization (H : String) (L : List String) :
    shouldBypass H L = true ↔
      ∃ p ∈ L, p = "*" ∨ p = H ∨ ∃ D, p = "." ++ D ∧ (H = D ∨ p.toList <:+ H.toList) := by
  unfold shouldBypass
  rw [List.any_eq_true]
  constructor
  · rintro ⟨p, hp, hb⟩
    exact ⟨p, hp, (bypassPattern_iff H p).mp hb⟩
  · rintro ⟨p, hp, hb⟩
    exact ⟨p, hp, (bypassPattern_iff H p).mpr hb⟩

/-! ## Resilient fetcher (`fetch-with-retry.ts`, `fetchWithRetry`) -/

/-- Outcome of the primary in-process `fetch` attempt: either the call threw
(network error), or a response arrived with a status, a status text and a
`response.json()` outcome (`Except.error` models a JSON parse throw). -/
inductive PrimaryOutcome (J : Type)
  | threw (msg : String)
  | responded (status : Nat) (statusText : String) (body : Except String J)

/-- `response.ok` per the fetch standard: status in the inclusive range 200–299. -/
def statusOk (status : Nat) : Bool := 200 ≤ status && status ≤ 299

/-- The `try` block of `fetchWithRetry`: non-2xx responses raise
`Fetch failed with status {status}: {statusText}`; otherwise the JSON body
outcome is returned (a parse throw is an error as well). -/
def primaryResult {J : Type} : PrimaryOutcome J → Except String J
  | .threw msg => .error msg
  | .responded status statusText body =>
    if statusOk status then body
    else .error ("Fetch failed with status " ++ toString status ++ ": " ++ statusText)

/-- `formatHeadersForCurl(headers)`: `undefined` gives `[]`, otherwise each
`[key, value]` entry becomes the single argument `-H "key: value"`. -/
def formatHeadersForCurl (headers : Option (List (String × String))) : List String :=
  match headers with
  | none => []
  | some hs => hs.map (fun kv => "-H \"" ++ kv.1 ++ ": " ++ kv.2 ++ "\"")

/-- The template literal
`curl -s -S --fail-with-body -L ${curlHeaders.join(" ")} "${url}"`. -/
def buildCurlCommand (url : String) (headers : Option (List (String × String))) : String :=
  "curl -s -S --fail-with-body -L " ++ String.intercalate " " (formatHeadersForCurl headers) ++
    " \"" ++ url ++ "\""

/-- The inner `try` block of the fallback: `curl` models `execAsync`'s outcome
(`Except.error` = the process invocation rejected; `Except.ok` = captured
`(stdout, stderr)`); `parse` models `JSON.parse`.  Mirrors the stderr
classification, the empty-stdout check and the final parse of the source. -/
def curlAttempt {J : Type} (curl : Except String (String × String))
    (parse : String → Except String J) : Except String J :=
  match curl with
  | .error msg => .error msg
  | .ok (stdout, stderr) =>
    if stderr ≠ "" ∧ (stdout = "" ∨ strContains (strToLower stderr) "error" = true ∨
        strContains (strToLower stderr) "fail" = true) then
      .error ("Curl command failed with stderr: " ++ stderr)
    else if stdout = "" then .error "Curl command returned empty stdout."
    else parse stdout

/-- The two states of the fetch state machine. -/
inductive AttemptState
  | PRIMARY
  | FALLBACK
deriving DecidableEq, BEq

/-- `fetchWithRetry(url, options)` together with the list of states attempted,
in order.  The curl command is built and the external process run (`exec`)
only inside the catch block, i.e. only when the FALLBACK state is entered;
any error of the fallback leads to `throw fetchError` — the retained primary
error. -/
def fetchWithRetryTrace {J : Type} (url : String) (headers : Option (List (String × String)))
    (primary : PrimaryOutcome J) (exec : String → Except String (String × String))
    (parse : String → Except String J) : Except String J × List AttemptState :=
  match primaryResult primary with
  | .ok v => (.ok v, [.PRIMARY])
  | .error fetchError =>
    match curlAttempt (exec (buildCurlCommand url headers)) parse with
    | .ok v => (.ok v, [.PRIMARY, .FALLBACK])
    | .error _ => (.error fetchError, [.PRIMARY, .FALLBACK])

/-- The value `fetchWithRetry` settles with. -/
def fetchWithRetry {J : Type} (url : String) (headers : Option (List (String × String)))
    (primary : PrimaryOutcome J) (exec : String → Except String (String × String))
    (parse : String → Except String J) : Except String J :=
  (fetchWithRetryTrace url headers primary exec parse).1

/-- C2: whenever the primary attempt fails and the fallback also fails (for any
reason: process error, failure-classified stderr, empty stdout, or JSON parse
error — all of which are `curlAttempt` errors), `fetchWithRetry` raises the
ORIGINAL primary error. -/
theorem fetchWithRetry_rethrows_primary_error {J : Type} (url : String)
    (headers : Option (List (String × String))) (primary : PrimaryOutcome J)
    (exec : String → Except String (String × String)) (parse : String → Except String J)
    (e m : String)
    (hp : primaryResult primary = .error e)
    (hc : curlAttempt (exec (buildCurlCommand url headers)) parse = .error m) :
    fetchWithRetry url headers primary exec parse = .error e := by
  unfold fetchWithRetry fetchWithRetryTrace
  rw [hp, hc]

theorem fetchWithRetry_rethrows_primary_error_witness :
    fetchWithRetry (J := Nat) "https://api.figma.com/v1/files/k" none
      (.threw "fetch failed: self-signed certificate")
      (fun _ => Except.error "spawn curl ENOENT") (fun _ => Except.error "Unexpected token") =
      Except.error "fetch failed: self-signed certificate" :=
  fetchWithRetry_rethrows_primary_error _ _ _ _ _ _ "spawn curl ENOENT" rfl rfl

/-- C4: a 2xx primary response with a JSON-parseable body is returned as-is and
the FALLBACK state is never entered (the trace is `[PRIMARY]`, so no curl
command is built or executed); moreover on all inputs each of the two states
appears at most once in the trace — there is no retry loop. -/
theorem fetchWithRetry_primary_success {J : Type} (url : String)
    (headers : Option (List (String × String))) (status : Nat) (statusText : String) (v : J)
    (p : PrimaryOutcome J) (exec : String → Except String (String × String))
    (parse : String → Except String J)
    (h : statusOk status = true) :
    fetchWithRetryTrace url headers (.responded status statusText (.ok v)) exec parse =
      (.ok v, [.PRIMARY])
    ∧ (fetchWithRetryTrace url headers p exec parse).2.count .PRIMARY ≤ 1
    ∧ (fetchWithRetryTrace url headers p exec parse).2.count .FALLBACK ≤ 1 := by
  refine ⟨?_, ?_, ?_⟩
  · simp [fetchWithRetryTrace, primaryResult, h]
  · unfold fetchWithRetryTrace
    cases hr : primaryResult p with
    | ok w =>
      show List.count AttemptState.PRIMARY [AttemptState.PRIMARY] ≤ 1
      decide
    | error e =>
      cases hc : curlAttempt (exec (buildCurlCommand url headers)) parse with
      | ok w =>
        show List.count AttemptState.PRIMARY [AttemptState.PRIMARY, AttemptState.FALLBACK] ≤ 1
        decide
      | error m =>
        show List.count AttemptState.PRIMARY [AttemptState.PRIMARY, AttemptState.FALLBACK] ≤ 1
        decide
  · unfold fetchWithRetryTrace
    cases hr : primaryResult p with
    | ok w =>
      show List.count AttemptState.FALLBACK [AttemptState.PRIMARY] ≤ 1
      decide
    | error e =>
      cases hc : curlAttempt (exec (buildCurlCommand url headers)) parse with
      | ok w =>
        show List.count AttemptState.FALLBACK [AttemptState.PRIMARY, AttemptState.FALLBACK] ≤ 1
        decide
      | error m =>
        show List.count AttemptState.FALLBACK [AttemptState.PRIMARY, AttemptState.FALLBACK] ≤ 1
        decide

theorem fetchWithRetry_primary_success_witness :
    fetchWithRetryTrace (J := Nat) "https://api.figma.com/v1/files/k" none
      (.responded 200 "OK" (.ok 7)) (fun _ => Except.error "unused") (fun _ => Except.ok 0) =
      (Except.ok 7, [AttemptState.PRIMARY]) :=
  (fetchWithRetry_primary_success _ _ 200 "OK" 7 (.threw "x") _ _ (by decide)).1

/-- C5: with non-empty stderr E and stdout S, the fallback classifies the run
as a failure exactly when S is empty or lowercased E contains "error" or
"fail"; otherwise execution proceeds to parse S (the stderr is merely logged). -/
theorem curlAttempt_stderr_classification {J : Type} (stdout stderr : String)
    (parse : String → Except String J) (hne : stderr ≠ "") :
    (stdout = "" ∨ strContains (strToLower stderr) "error" = true ∨
        strContains (strToLower stderr) "fail" = true →
      curlAttempt (Except.ok (stdout, stderr)) parse =
        Except.error ("Curl command failed with stderr: " ++ stderr))
    ∧ (¬(stdout = "" ∨ strContains (strToLower stderr) "error" = true ∨
        strContains (strToLower stderr) "fail" = true) →
      curlAttempt (Except.ok (stdout, stderr)) parse = parse stdout) := by
  constructor
  · intro h
    show (if stderr ≠ "" ∧ (stdout = "" ∨ strContains (strToLower stderr) "error" = true ∨
          strContains (strToLower stderr) "fail" = true) then
        Except.error ("Curl command failed with stderr: " ++ stderr)
      else if stdout = "" then Except.error "Curl command returned empty stdout."
      else parse stdout) = Except.error ("Curl command failed with stderr: " ++ stderr)
    rw [if_pos ⟨hne, h⟩]
  · intro h
    have hs : ¬stdout = "" := fun he => h (Or.inl he)
    show (if stderr ≠ "" ∧ (stdout = "" ∨ strContains (strToLower stderr) "error" = true ∨
          strContains (strToLower stderr) "fail" = true) then
        Except.error ("Curl command failed with stderr: " ++ stderr)
      else if stdout = "" then Except.error "Curl command returned empty stdout."
      else parse stdout) = parse stdout
    rw [if_neg (fun hc : _ ∧ _ => h hc.2), if_neg hs]

theorem curlAttempt_stderr_classification_witness :
    curlAttempt (J := String) (Except.ok ("[1, 2, 3]", "curl: (6) Could not resolve host: ERROR"))
      (fun s => Except.ok s) =
      Except.error "Curl command failed with stderr: curl: (6) Could not resolve host: ERROR" :=
  (curlAttempt_stderr_classification _ _ _ (by decide)).1 (Or.inr (Or.inl (by decide)))

/-! ## C3: malformed URLs degrade to the proxy-if-configured default -/

/-- The proxy URL that `getDispatcher` effectively uses once JS truthiness of
`PROXY` is taken into account (`undefined` and `""` both mean "no proxy"). -/
def effectiveProxyUrl (e : Env) : Option String :=
  match e.HTTPS_PROXY <|> e.HTTP_PROXY with
  | some p => if p = "" then none else some p
  | none => none

/-- C3: for a malformed URL (the `URL` constructor throws, `parseHost url = none`)
dispatcher resolution is total — it returns the proxy route whenever a proxy is
configured and the direct route otherwise, whatever `NO_PROXY` holds. -/
theorem getDispatcher_malformed_url (parseHost : String → Option String) (e : Env)
    (url : String) (h : parseHost url = none) :
    getDispatcher parseHost e url =
      (match effectiveProxyUrl e with
       | some p => Dispatch.proxy p
       | none => Dispatch.direct) := by
  have hb : ∀ np, shouldBypassProxy parseHost url np = false := by
    intro np; unfold shouldBypassProxy; rw [h]
  unfold getDispatcher getDispatcherCounted getDispatcherFromConfig readProxyConfig
    effectiveProxyUrl
  cases hp : e.HTTPS_PROXY <|> e.HTTP_PROXY with
  | none => rfl
  | some p =>
    by_cases hpe : p = ""
    · simp [hpe]
    · simp only [hpe, if_neg hpe, if_false]
      cases hn : e.NO_PROXY <|> e.no_proxy with
      | none => simp
      | some np => simp [hb np]

/-- Concrete environments shared by several witnesses below. -/
def envProxyOnly : Env :=
  { HTTPS_PROXY := some "http://proxy.local:8080", HTTP_PROXY := none,
    https_proxy := none, http_proxy := none, NO_PROXY := none, no_proxy := none }

def envEmpty : Env :=
  { HTTPS_PROXY := none, HTTP_PROXY := none, https_proxy := none, http_proxy := none,
    NO_PROXY := none, no_proxy := none }

theorem getDispatcher_malformed_url_witness :
    getDispatcher (fun _ => none) envProxyOnly "not a url" =
      Dispatch.proxy "http://proxy.local:8080" := by
  have := getDispatcher_malformed_url (fun _ => none) envProxyOnly "not a url" rfl
  simpa [envProxyOnly, effectiveProxyUrl] using this

/-! ## The `fetch-with-proxy` module dispatcher (cached, module-level state) -/

/-- An undici agent object as observable here: the shared direct `Agent`, or a
`ProxyAgent` built for a proxy URL. -/
inductive AgentObj
  | directAgent
  | proxyAgent (url : String)
deriving DecidableEq

/-- The module-level state of the `fetch-with-proxy` dispatcher: `PROXY`,
`NO_PROXY_LIST`, and the two agents `direct` and `via`, all computed once when
the module is loaded. -/
structure ModuleState where
  PROXY : Option String
  NO_PROXY_LIST : List String
  direct : AgentObj
  via : AgentObj
deriving DecidableEq

/-- Module initialisation: `PROXY = env.HTTPS_PROXY ?? env.HTTP_PROXY ??
env.https_proxy ?? env.http_proxy`; `NO_PROXY_LIST` is the comma-split,
trimmed, `filter(Boolean)` list; `direct = new Agent()`;
`via = PROXY ? new ProxyAgent(PROXY) : direct`. -/
def moduleInit (e : Env) : ModuleState :=
  let PROXY := e.HTTPS_PROXY <|> e.HTTP_PROXY <|> e.https_proxy <|> e.http_proxy
  { PROXY := PROXY
    NO_PROXY_LIST :=
      (splitTrim ((e.NO_PROXY <|> e.no_proxy).getD "")).filter (fun s => s ≠ "")
    direct := AgentObj.directAgent
    via :=
      match PROXY with
      | some p => if p = "" then AgentObj.directAgent else AgentObj.proxyAgent p
      | none => AgentObj.directAgent }

/-- `inNoProxy(host)` of the module:
`p === "*" || host === p || (p.startsWith(".") && (host === p.slice(1) || host.endsWith(p)))`. -/
def inNoProxy (noProxyList : List String) (host : String) : Bool :=
  noProxyList.any fun p =>
    p == "*" || host == p ||
      (strStartsWith p "." && (host == sliceFrom1 p || strEndsWith host p))

/-- The `dispatch` method of the exported dispatcher: parse the origin (the
`catch` falls through to `via`), bypass to the prebuilt `direct` agent on a
no-proxy match, otherwise use the prebuilt `via` agent.  No agent is
constructed here — the method only selects between `m.direct` and `m.via`. -/
def moduleDispatch (m : ModuleState) (parseHost : String → Option String)
    (origin : String) : AgentObj :=
  match parseHost origin with
  | some host => if inNoProxy m.NO_PROXY_LIST host then m.direct else m.via
  | none => m.via

/-- A call to the module dispatcher made while the live process environment is
`callEnv`, after the module was loaded under `loadEnv`.  Faithful to the
source: the module-level constants were computed from `loadEnv` and the
dispatch method never rereads the environment, so `callEnv` is unused. -/
def moduleCallDecision (loadEnv : Env) (callEnv : Env)
    (parseHost : String → Option String) (origin : String) : AgentObj :=
  moduleDispatch (moduleInit loadEnv) parseHost origin

/-- C6 counterexample: the module dispatcher's configuration is cached at load
time.  With the module loaded under a proxy-bearing environment, a later call
made when the environment no longer configures any proxy still routes through
the stale proxy agent, while a call whose configuration were read at call time
would be direct.  So the decision does not reflect the environment at the
call's time. -/
theorem proxy_config_cached_counterexample :
    moduleCallDecision envProxyOnly envEmpty (fun _ => some "api.other.com")
        "https://api.other.com/x" = AgentObj.proxyAgent "http://proxy.local:8080"
    ∧ moduleCallDecision envEmpty envEmpty (fun _ => some "api.other.com")
        "https://api.other.com/x" = AgentObj.directAgent := by
  constructor <;> rfl

/-- C6 amended: `getDispatcher` (fetch-with-retry) does read the proxy
configuration from the environment anew on each call — its decision is fully
determined by the configuration read from the call-time environment — but the
`fetch-with-proxy` module dispatcher's decision is fixed by the load-time
environment and ignores the environment current at the call. -/
theorem proxy_config_read_semantics :
    (∀ (parseHost : String → Option String) (e₁ e₂ : Env) (url : String),
      readProxyConfig e₁ = readProxyConfig e₂ →
        getDispatcherCounted parseHost e₁ url = getDispatcherCounted parseHost e₂ url)
    ∧ (∀ (loadEnv c₁ c₂ : Env) (parseHost : String → Option String) (origin : String),
      moduleCallDecision loadEnv c₁ parseHost origin =
        moduleCallDecision loadEnv c₂ parseHost origin) := by
  constructor
  · intro parseHost e₁ e₂ url h
    unfold getDispatcherCounted
    rw [h]
  · intro loadEnv c₁ c₂ parseHost origin
    rfl

theorem proxy_config_read_semantics_witness :
    getDispatcherCounted (fun _ => some "api.other.com")
        { envProxyOnly with https_proxy := some "http://other:1" } "https://api.other.com/x" =
      getDispatcherCounted (fun _ => some "api.other.com") envProxyOnly
        "https://api.other.com/x" :=
  proxy_config_read_semantics.1 _ _ _ _ rfl

/-- C7 counterexample: `getDispatcher` does not reuse a pre-built proxy agent —
it executes `new ProxyAgent(PROXY)` on every call that routes through the
proxy.  On this request the call performs one agent construction, so transport
agents are not "constructed once at startup and never re-constructed per
request". -/
theorem agent_reconstruction_counterexample :
    (getDispatcherCounted (fun _ => some "api.other.com") envProxyOnly
      "https://api.other.com/x").2 = 1 := by
  rfl

/-- C7 amended: the `fetch-with-proxy` module builds its agents once at load
and each dispatch only selects one of the two prebuilt agents; `getDispatcher`
in fetch-with-retry instead constructs a fresh `ProxyAgent` on every call that
resolves to the proxy route (and none on the direct route). -/
theorem agent_construction_semantics :
    (∀ (m : ModuleState) (parseHost : String → Option String) (origin : String),
      moduleDispatch m parseHost origin = m.direct ∨
        moduleDispatch m parseHost origin = m.via)
    ∧ (∀ (parseHost : String → Option String) (e : Env) (url : String),
        ((getDispatcherCounted parseHost e url).1 = Dispatch.direct →
          (getDispatcherCounted parseHost e url).2 = 0)
        ∧ ∀ p, (getDispatcherCounted parseHost e url).1 = Dispatch.proxy p →
          (getDispatcherCounted parseHost e url).2 = 1) := by
  constructor
  · intro m parseHost origin
    unfold moduleDispatch
    cases parseHost origin with
    | none => exact Or.inr rfl
    | some host =>
      by_cases h : inNoProxy m.NO_PROXY_LIST host = true
      · exact Or.inl (by simp [h])
      · exact Or.inr (by simp [h])
  · intro parseHost e url
    have key : getDispatcherCounted parseHost e url = (Dispatch.direct, 0) ∨
        ∃ p, getDispatcherCounted parseHost e url = (Dispatch.proxy p, 1) := by
      unfold getDispatcherCounted getDispatcherFromConfig
      cases hp : (readProxyConfig e).proxyUrl with
      | none => exact Or.inl rfl
      | some pu =>
        by_cases hpe : pu = ""
        · exact Or.inl (by simp [hpe])
        · simp only [if_neg hpe]
          cases hn : (readProxyConfig e).noProxyRaw with
          | none => exact Or.inr ⟨pu, rfl⟩
          | some np =>
            by_cases hb : np ≠ "" ∧ shouldBypassProxy parseHost url np = true
            · exact Or.inl (by simp [hb])
            · simp only [if_neg hb]
              exact Or.inr ⟨pu, rfl⟩
    rcases key with h | ⟨p, h⟩
    · rw [h]
      exact ⟨fun _ => rfl, fun q hq => (nomatch hq)⟩
    · rw [h]
      exact ⟨fun hd => (nomatch hd), fun q _ => rfl⟩

theorem agent_construction_semantics_witness :
    (getDispatcherCounted (fun _ => some "api.other.com") envProxyOnly
      "https://api.other.com/x").2 = 1 :=
  (agent_construction_semantics.2 _ envProxyOnly "https://api.other.com/x").2
    "http://proxy.local:8080" rfl

/-! ## Figma service (`figma.ts`) -/

/-- JS truthiness of an optional string (`undefined`, `null` and `""` are falsy). -/
def truthyOpt (o : Option String) : Bool :=
  match o with
  | some s => s ≠ ""
  | none => false

/-- The message of the error thrown when no API key is available. -/
def noKeyMsg : String :=
  "No Figma API key available. Either provide session_hash with valid Redis key or configure --figma-api-key"

/-- `FigmaService.getAuthHeaders(sessionHash)`.  `redisLookup` is the outcome of
`redisService.getFigmaApiKey(sessionHash)` (`Except.error` = the lookup threw,
which `getFigmaApiKey` does after logging; `Except.ok none` = no key stored).
The `try/catch` around the lookup and the `if (redisApiKey)` truthiness check
are embedded directly; the result is the headers record or the thrown error. -/
def getAuthHeaders (useOAuth : Bool) (oauthToken apiKey : String)
    (sessionHash : Option String) (redisLookup : Except String (Option String)) :
    Except String (List (String × String)) :=
  if useOAuth then .ok [("Authorization", "Bearer " ++ oauthToken)]
  else
    let key :=
      if truthyOpt sessionHash then
        match redisLookup with
        | .ok (some r) => if r ≠ "" then r else apiKey
        | .ok none => apiKey
        | .error _ => apiKey
      else apiKey
    if key = "" then .error noKeyMsg
    else .ok [("X-Figma-Token", key)]

/-- C8: with a session hash, when the credential-store lookup throws or returns
no value, `getAuthHeaders` falls back to the statically configured key; it
raises (the no-key error) exactly when that fallback key is absent too. -/
theorem getAuthHeaders_fallback (oauthToken apiKey h : String)
    (redisLookup : Except String (Option String))
    (hh : h ≠ "")
    (hfail : (∃ m, redisLookup = .error m) ∨ redisLookup = .ok none) :
    getAuthHeaders false oauthToken apiKey (some h) redisLookup =
      (if apiKey = "" then .error noKeyMsg else .ok [("X-Figma-Token", apiKey)]) := by
  unfold getAuthHeaders
  have ht : truthyOpt (some h) = true := by simpa [truthyOpt] using hh
  rcases hfail with ⟨m, hm⟩ | hn
  · rw [if_neg (by simp), hm, ht]
    simp
  · rw [if_neg (by simp), hn, ht]
    simp

theorem getAuthHeaders_fallback_witness :
    getAuthHeaders false "" "figd_static_key" (some "sess-1") (Except.error "ECONNREFUSED") =
      Except.ok [("X-Figma-Token", "figd_static_key")] := by
  have := getAuthHeaders_fallback "" "figd_static_key" "sess-1" (Except.error "ECONNREFUSED")
    (by decide) (Or.inl ⟨"ECONNREFUSED", rfl⟩)
  simpa using this

/-- C9: `formatHeadersForCurl` is length-preserving; `{}` and an absent mapping
give zero header arguments, a singleton mapping gives exactly the one argument
`-H "key: value"`. -/
theorem formatHeadersForCurl_lengths :
    (∀ hs : List (String × String), (formatHeadersForCurl (some hs)).length = hs.length)
    ∧ formatHeadersForCurl none = []
    ∧ formatHeadersForCurl (some []) = []
    ∧ formatHeadersForCurl (some [("Authorization", "Bearer X")]) =
        ["-H \"Authorization: Bearer X\""] := by
  refine ⟨fun hs => ?_, rfl, rfl, ?_⟩
  · unfold formatHeadersForCurl
    exact List.length_map _ _
  · show ["-H \"" ++ "Authorization" ++ ": " ++ "Bearer X" ++ "\""] =
      ["-H \"Authorization: Bearer X\""]
    decide

/-- `FigmaService.filterValidImages`: drop entries whose value is JS-falsy
(`null` or `""`); `undefined` input gives the empty record. -/
def filterValidImages (images : Option (List (String × Option String))) :
    List (String × String) :=
  match images with
  | none => []
  | some l =>
    l.filterMap fun kv =>
      match kv with
      | (k, some v) => if v = "" then none else some (k, v)
      | (_, none) => none

/-- The `GetImagesResponse` shape used by `getNodeRenderUrls`: its `images`
field maps node IDs to a download URL or `null`, and may be absent. -/
structure GetImagesResponse where
  images : Option (List (String × Option String))

/-- The render format argument, `"png" | "svg"`. -/
inductive ImgFormat
  | png
  | svg
deriving DecidableEq

/-- `FigmaService.getNodeRenderUrls(fileKey, nodeIds, format, ...)`.  `response`
is the outcome of `this.request` on the endpoint built for the chosen format
(`Except.error` = the request threw).  The Boolean records whether a request
was performed: an empty `nodeIds` list returns `{}` before any request. -/
def getNodeRenderUrls (nodeIds : List String) (format : ImgFormat)
    (response : Except String GetImagesResponse) :
    Except String (List (String × String)) × Bool :=
  if nodeIds.length = 0 then (.ok [], false)
  else
    match format with
    | .png => (response.map fun r => filterValidImages r.images, true)
    | .svg => (response.map fun r => filterValidImages r.images, true)

theorem filterValidImages_values (images : Option (List (String × Option String)))
    (kv : String × String) (hkv : kv ∈ filterValidImages images) : kv.2 ≠ "" := by
  cases images with
  | none => simp [filterValidImages] at hkv
  | some l =>
    unfold filterValidImages at hkv
    obtain ⟨a, _, ha⟩ := List.mem_filterMap.mp hkv
    rcases a with ⟨k, v⟩
    cases v with
    | none => simp at ha
    | some v =>
      by_cases hv : v = ""
      · simp [hv] at ha
      · simp only [if_neg hv, Option.some.injEq] at ha
        rw [← ha]
        exact hv

/-- C10: every map returned by `getNodeRenderUrls` holds only non-empty
download-URL strings (the `null` entries of the response are filtered out), and
an empty node-id list yields the empty map without performing any request. -/
theorem getNodeRenderUrls_valid (nodeIds : List String) (format : ImgFormat)
    (response : Except String GetImagesResponse) :
    (∀ m, (getNodeRenderUrls nodeIds format response).1 = .ok m →
      ∀ kv ∈ m, kv.2 ≠ "")
    ∧ (nodeIds = [] → getNodeRenderUrls nodeIds format response = (.ok [], false)) := by
  constructor
  · intro m hm kv hkv
    unfold getNodeRenderUrls at hm
    by_cases hn : nodeIds.length = 0
    · rw [if_pos hn] at hm
      simp at hm
      subst hm
      simp at hkv
    · rw [if_neg hn] at hm
      have hresp : ∃ r, response = .ok r ∧ m = filterValidImages r.images := by
        cases format with
        | png =>
          cases response with
          | error e => simp [Except.map] at hm
          | ok r => exact ⟨r, rfl, by simpa [Except.map] using hm.symm⟩
        | svg =>
          cases response with
          | error e => simp [Except.map] at hm
          | ok r => exact ⟨r, rfl, by simpa [Except.map] using hm.symm⟩
      obtain ⟨r, _, hmr⟩ := hresp
      rw [hmr] at hkv
      exact filterValidImages_values r.images kv hkv
  · intro h
    subst h
    rfl

theorem getNodeRenderUrls_valid_witness :
    getNodeRenderUrls [] ImgFormat.png
        (Except.ok { images := some [("1:2", some "https://cdn/x.png"), ("1:3", none)] }) =
      (Except.ok [], false) :=
  (getNodeRenderUrls_valid [] ImgFormat.png _).2 rfl
